import Mathlib

/-!
# albert: the main window widget (`src/application/mainwidget/mainwidget.cpp`)

A shallow embedding of `MainWidget`: the window's members, the part of the
application and of the event loop that the widget touches (the application
stylesheet, the emitted signals, the outstanding single-shot timers), and the
member functions `show`, `hide`, `toggleVisibility`, `setTheme`,
`keyPressEvent`, `event`, the constructor and the destructor.

Toolkit primitives (`QWidget::show`, `QRect::center`, `QFileInfo::baseName`,
`QVariant` conversions, `QTimer::singleShot`, ...) are modelled by what the
toolkit documents for them; each such definition says so.
Coordinates are C++ `int` values: the model keeps them as integers and wraps
the result of every `int` addition and subtraction into the 32-bit range
(`wrap32`); `/` on `int` is truncating division.
-/

namespace Albert

/-! ## Geometry -/

/-- A point with integer coordinates (`QPoint`). -/
structure QPoint where
  x : Int
  y : Int
deriving DecidableEq, Repr

/-- The value of a 32-bit `int` computation whose exact result is `n`: `n`
wrapped into the range from `-2147483648` to `2147483647`. -/
def wrap32 (n : Int) : Int := (n + 2147483648) % 4294967296 - 2147483648

/-- Component-wise difference of two points (`QPoint operator-`), each
coordinate an `int` subtraction. -/
def QPoint.sub (p q : QPoint) : QPoint := ⟨wrap32 (p.x - q.x), wrap32 (p.y - q.y)⟩

/-- A rectangle given by its inclusive corners (`QRect` stores `x1, y1, x2, y2`). -/
structure QRect where
  x1 : Int
  y1 : Int
  x2 : Int
  y2 : Int
deriving DecidableEq, Repr

/-- The rectangle with the given top-left corner and size: `QRect(x, y, w, h)`
has `x2 = x + w - 1` and `y2 = y + h - 1`, computed on `int`. -/
def QRect.ofSize (x y w h : Int) : QRect := ⟨x, y, wrap32 (x + w - 1), wrap32 (y + h - 1)⟩

/-- The x coordinate of the right edge (`QRect::right`). -/
def QRect.right (r : QRect) : Int := r.x2

/-- The center of a rectangle (`QRect::center`):
`(int((qint64(x1)+x2)/2), int((qint64(y1)+y2)/2))`, the sums taken in 64 bits,
halved with the truncating division of C++ and converted back to `int`. -/
def QRect.center (r : QRect) : QPoint :=
  ⟨wrap32 (Int.tdiv (r.x1 + r.x2) 2), wrap32 (Int.tdiv (r.y1 + r.y2) 2)⟩

/-- What `show` asks the desktop: the pointer position (`QCursor::pos`), the
screen a point lies on (`QDesktopWidget::screenNumber`) and the available
geometry of a screen (`QDesktopWidget::availableGeometry`). -/
structure Desktop where
  cursorPos : QPoint
  screenNumber : QPoint → Int
  availableGeometry : Int → QRect

/-! ## The widget -/

/-- The two signals of `MainWidget`. -/
inductive Signal
  | widgetShown
  | widgetHidden
deriving DecidableEq, Repr

/-- A file reported by `QDir::entryInfoList(QStringList("*.qss"),
QDir::Files | QDir::NoSymLinks)`: its file name, and what opening it read-only
and reading it fully gives (`none` when `QFile::open` fails). -/
structure QFileInfo where
  fileName : String
  contents : Option String
deriving DecidableEq, Repr

/-- The base name (`QFileInfo::baseName`): all characters of the file name up
to, not including, the first `.`. -/
def QFileInfo.baseName (fi : QFileInfo) : String :=
  String.mk (fi.fileName.toList.takeWhile (fun c => c ≠ '.'))

/-- The state the member functions of `MainWidget` read and write.

* `visible`, `pos`, `width`, `height`, `active`: the `QWidget` part
  (`isVisible`, `pos`, `rect`, raised/activated/focused);
* `inputLine`: the text of `ui.inputLine`;
* `showCentered_`, `theme_`, `hideOnFocusLoss_`: the members of the class;
* `emitted`: the signals emitted so far, oldest first;
* `styleSheet`: the application stylesheet (`qApp->styleSheet()`);
* `fileOpens`: the files `setTheme` tried to open so far, oldest first;
* `now`, `timers`: the clock of the event loop in milliseconds and the
  deadlines of the outstanding `QTimer::singleShot(_, this, &MainWidget::hide)`
  requests, in the order they were scheduled. -/
structure MainWidget where
  visible : Bool
  pos : QPoint
  width : Int
  height : Int
  active : Bool
  inputLine : String
  showCentered_ : Bool
  theme_ : String
  hideOnFocusLoss_ : Bool
  emitted : List Signal
  styleSheet : String
  fileOpens : List QFileInfo
  now : Nat
  timers : List Nat
deriving DecidableEq, Repr

/-- The widget's own rectangle (`QWidget::rect`): `QRect(0, 0, width, height)`. -/
def MainWidget.rect (w : MainWidget) : QRect := QRect.ofSize 0 0 w.width w.height

/-- Moves the window (`QWidget::move`). -/
def MainWidget.move (w : MainWidget) (p : QPoint) : MainWidget := { w with pos := p }

/-- The function `MainWidget::show`. -/
def MainWidget.show (dw : Desktop) (w : MainWidget) : MainWidget :=
  -- ui.inputLine->clear();
  let w1 := { w with inputLine := "" }
  -- QWidget::show();
  let w2 := { w1 with visible := true }
  -- if (showCentered_) move(availableGeometry(screenNumber(QCursor::pos())).center()
  --                         - QPoint(rect().right()/2, 192));
  let w3 :=
    if w2.showCentered_ then
      w2.move (QPoint.sub (dw.availableGeometry (dw.screenNumber dw.cursorPos)).center
        ⟨Int.tdiv w2.rect.right 2, 192⟩)
    else w2
  -- raise(); activateWindow(); ui.inputLine->setFocus();
  let w4 := { w3 with active := true }
  -- emit widgetShown();
  { w4 with emitted := w4.emitted ++ [Signal.widgetShown] }

/-- The function `MainWidget::hide`. -/
def MainWidget.hide (w : MainWidget) : MainWidget :=
  -- QWidget::hide();
  let w1 := { w with visible := false }
  -- emit widgetHidden();
  { w1 with emitted := w1.emitted ++ [Signal.widgetHidden] }

/-- The function `MainWidget::toggleVisibility`. -/
def MainWidget.toggleVisibility (dw : Desktop) (w : MainWidget) : MainWidget :=
  if w.visible then w.hide else w.show dw

/-- The function `MainWidget::setShowCentered`. -/
def MainWidget.setShowCentered (b : Bool) (w : MainWidget) : MainWidget :=
  { w with showCentered_ := b }

/-- The function `MainWidget::showCentered`. -/
def MainWidget.showCentered (w : MainWidget) : Bool := w.showCentered_

/-- The function `MainWidget::theme`. -/
def MainWidget.theme (w : MainWidget) : String := w.theme_

/-- The function `MainWidget::hideOnFocusLoss`. -/
def MainWidget.hideOnFocusLoss (w : MainWidget) : Bool := w.hideOnFocusLoss_

/-- The function `MainWidget::setHideOnFocusLoss`. -/
def MainWidget.setHideOnFocusLoss (b : Bool) (w : MainWidget) : MainWidget :=
  { w with hideOnFocusLoss_ := b }

/-! ## The visibility state machine of the specification -/

/-- The two visibility states of the specification. -/
inductive WindowState
  | Hidden
  | Visible
deriving DecidableEq, Repr

/-- The visibility state of a widget. -/
def MainWidget.windowState (w : MainWidget) : WindowState :=
  if w.visible then WindowState.Visible else WindowState.Hidden

/-- The three visibility calls. -/
inductive Call
  | show
  | hide
  | toggleVisibility
deriving DecidableEq, Repr

/-- Runs one call on the widget. -/
def Call.run (dw : Desktop) (w : MainWidget) : Call → MainWidget
  | Call.show => w.show dw
  | Call.hide => w.hide
  | Call.toggleVisibility => w.toggleVisibility dw

/-- Runs a sequence of calls on the widget, first call first. -/
def runCalls (dw : Desktop) (w : MainWidget) (cs : List Call) : MainWidget :=
  cs.foldl (Call.run dw) w

/-- The opposite visibility state. -/
def WindowState.opposite : WindowState → WindowState
  | WindowState.Hidden => WindowState.Visible
  | WindowState.Visible => WindowState.Hidden

/-- The two-state machine as the specification words it: `show()` always
yields Visible, `hide()` always yields Hidden, `toggleVisibility()` yields the
opposite of the state before the call. -/
def specStep (st : WindowState) : Call → WindowState
  | Call.show => WindowState.Visible
  | Call.hide => WindowState.Hidden
  | Call.toggleVisibility => st.opposite

/-! ## Themes -/

/-- The loop of `MainWidget::setTheme` over the collected `themes`: the first
file whose base name equals `theme_` and that can be opened is read fully and
set as the application stylesheet, and the loop stops there (`break`); the first
component is the local `success`. -/
def MainWidget.applyTheme : List QFileInfo → MainWidget → Bool × MainWidget
  | [], w => (false, w)
  | fi :: rest, w =>
    -- if (fi.baseName() == theme_)
    if fi.baseName = w.theme_ then
      -- QFile f(fi.canonicalFilePath()); if (f.open(QFile::ReadOnly))
      let w1 := { w with fileOpens := w.fileOpens ++ [fi] }
      match fi.contents with
      | some data =>
        -- qApp->setStyleSheet(f.readAll()); f.close(); success = true; break;
        (true, { w1 with styleSheet := data })
      | none => MainWidget.applyTheme rest w1
    else MainWidget.applyTheme rest w

/-- The list `themes` that `MainWidget::setTheme` collects: the listings of the
theme directories appended one after the other, in the order of the
directories. -/
def collectThemes (themeDirs : List (List QFileInfo)) : List QFileInfo :=
  themeDirs.foldl (fun acc d => acc ++ d) []

/-- The function `MainWidget::setTheme`. The argument `themeDirs` is what
`QStandardPaths::locateAll(DataLocation, "themes", LocateDirectory)` reports,
each directory given by its `entryInfoList(QStringList("*.qss"),
QDir::Files | QDir::NoSymLinks)`. -/
def MainWidget.setTheme (themeDirs : List (List QFileInfo)) (theme : String)
    (w : MainWidget) : Bool × MainWidget :=
  -- theme_ = theme;
  let w1 := { w with theme_ := theme }
  -- for (QDir d : themeDirs) themes << d.entryInfoList(...);
  let themes := collectThemes themeDirs
  MainWidget.applyTheme themes w1

/-! ## Key presses, deactivation and the delayed hide -/

/-- A key event (`QKeyEvent`): the key code, the modifier flags and the
accepted flag. -/
structure QKeyEvent where
  key : Nat
  modifiers : Nat
  accepted : Bool
deriving DecidableEq, Repr

/-- The key code `Qt::Key_Escape`. -/
def Key_Escape : Nat := 0x01000000

/-- The empty modifier set `Qt::NoModifier`. -/
def NoModifier : Nat := 0

/-- The default handler `QWidget::keyPressEvent` for this window. The toolkit
accepts the event and closes the widget only when the window type is
`Qt::Popup`; the constructor makes the window a `Qt::Tool`, so the handler
ignores the event (clears its accepted flag). -/
def QWidget_keyPressEvent (w : MainWidget) (e : QKeyEvent) : MainWidget × QKeyEvent :=
  (w, { e with accepted := false })

/-- The function `MainWidget::keyPressEvent`; the second component is the
event as it is when the function returns. -/
def MainWidget.keyPressEvent (w : MainWidget) (e : QKeyEvent) : MainWidget × QKeyEvent :=
  if e.modifiers = NoModifier ∧ e.key = Key_Escape then
    -- hide(); e->accept();
    QWidget_keyPressEvent w.hide { e with accepted := true }
  else
    QWidget_keyPressEvent w e

/-- The event types `MainWidget::event` tells apart. -/
inductive QEventType
  | WindowDeactivate
  | other (code : Nat)
deriving DecidableEq, Repr

/-- Schedules `MainWidget::hide` to run `msec` milliseconds from now
(`QTimer::singleShot(msec, this, &MainWidget::hide)`). -/
def MainWidget.singleShotHide (msec : Nat) (w : MainWidget) : MainWidget :=
  { w with timers := w.timers ++ [w.now + msec] }

/-- The function `MainWidget::event` (its effect on the widget; the result of
`QWidget::event` is not modelled). -/
def MainWidget.event (w : MainWidget) (t : QEventType) : MainWidget :=
  if t = QEventType.WindowDeactivate then
    if w.hideOnFocusLoss_ then w.singleShotHide 50 else w
  else w

/-- The event loop lets `dt` milliseconds pass: every outstanding single-shot
request whose deadline is reached is removed and its slot `MainWidget::hide`
runs, in scheduling order. -/
def MainWidget.elapse (dt : Nat) (w : MainWidget) : MainWidget :=
  let t := w.now + dt
  let due := w.timers.filter (fun d => decide (d ≤ t))
  let w1 := { w with now := t, timers := w.timers.filter (fun d => decide (t < d)) }
  due.foldl (fun acc _ => acc.hide) w1

/-- What can happen to the window between two returns to the event loop. -/
inductive Event
  | show
  | hide
  | toggleVisibility
  | keyPress (e : QKeyEvent)
  | event (t : QEventType)
  | elapse (dt : Nat)
deriving DecidableEq, Repr

/-- Handles one event. -/
def Event.run (dw : Desktop) (w : MainWidget) : Event → MainWidget
  | Event.show => w.show dw
  | Event.hide => w.hide
  | Event.toggleVisibility => w.toggleVisibility dw
  | Event.keyPress e => (w.keyPressEvent e).1
  | Event.event t => w.event t
  | Event.elapse dt => w.elapse dt

/-- Handles a sequence of events, first event first. -/
def runEvents (dw : Desktop) (w : MainWidget) (es : List Event) : MainWidget :=
  es.foldl (Event.run dw) w

/-- Whether handling the event in state `w` calls `MainWidget::show`. -/
def Event.callsShow (w : MainWidget) : Event → Bool
  | Event.show => true
  | Event.toggleVisibility => !w.visible
  | _ => false

/-- Whether no event of the sequence, handled from `w` on, calls
`MainWidget::show`. -/
def noShowCalled (dw : Desktop) : MainWidget → List Event → Bool
  | _, [] => true
  | w, e :: es => !e.callsShow w && noShowCalled dw (e.run dw w) es

/-- The number of window-deactivation events in a sequence. -/
def countDeactivations (es : List Event) : Nat :=
  es.countP (fun e => decide (e = Event.event QEventType.WindowDeactivate))

/-- The deadlines of the delayed-hide requests that handling the event at time
`now` makes: one, 50 ms ahead, for a deactivation with `hideOnFocusLoss` set,
none otherwise. -/
def Event.requests (flag : Bool) (now : Nat) (e : Event) : List Nat :=
  if e = Event.event QEventType.WindowDeactivate then
    (if flag then [now + 50] else [])
  else []

/-- The time that passes with the event. -/
def Event.duration : Event → Nat
  | Event.elapse dt => dt
  | _ => 0

/-- The deadlines of all delayed-hide requests made while the events are
handled, starting at time `now`, in the order they are made. -/
def requested (flag : Bool) : Nat → List Event → List Nat
  | _, [] => []
  | now, e :: es => e.requests flag now ++ requested flag (now + e.duration) es

/-- Deactivation, 20 ms, `show()`, deactivation, 10 ms. -/
def busyEvents : List Event :=
  [Event.event QEventType.WindowDeactivate, Event.elapse 20, Event.show,
    Event.event QEventType.WindowDeactivate, Event.elapse 10]

/-- The outstanding requests are well formed when none of them is due. -/
def timersPending (w : MainWidget) : Prop := ∀ d ∈ w.timers, w.now < d

/-- The first file of the collected list whose base name equals `name`, as the
specification words the match. -/
def firstMatch (name : String) (themes : List QFileInfo) : Option QFileInfo :=
  themes.find? (fun fi => decide (fi.baseName = name))

/-- The invariant behind the delayed hide: the window is hidden, or a request
with deadline at most `T` is still outstanding and not yet due. -/
def hideAssured (T : Nat) (w : MainWidget) : Prop :=
  w.visible = false ∨ ∃ d ∈ w.timers, d ≤ T ∧ w.now < d

/-! ## Settings, constructor and destructor -/

/-- The values the settings store holds (`QVariant`), as far as the widget
uses them. -/
inductive QVariant
  | bool (b : Bool)
  | string (s : String)
  | point (p : QPoint)
deriving DecidableEq, Repr

/-- The conversion `QVariant::toBool`: a string converts to `true` unless its
lower-case form is empty, `0` or `false`; a point does not convert. -/
def QVariant.toBool : QVariant → Bool
  | QVariant.bool b => b
  | QVariant.string s =>
    let l := s.toList.map Char.toLower
    !(decide (l = []) || decide (l = ['0']) || decide (l = ['f', 'a', 'l', 's', 'e']))
  | QVariant.point _ => false

/-- The conversion `QVariant::toString`: a boolean converts to `true` or
`false`; a point does not convert and gives the empty string. -/
def QVariant.toString : QVariant → String
  | QVariant.bool b => if b then "true" else "false"
  | QVariant.string s => s
  | QVariant.point _ => ""

/-- The test `QVariant::canConvert(QMetaType::QPoint)`. -/
def QVariant.canConvertPoint : QVariant → Bool
  | QVariant.point _ => true
  | _ => false

/-- The conversion `QVariant::toPoint`; the null point when the value does not
convert. -/
def QVariant.toPoint : QVariant → QPoint
  | QVariant.point p => p
  | _ => ⟨0, 0⟩

/-- The settings store (`QSettings`): keys with their values, a key at most
once. -/
abbrev QSettings := List (String × QVariant)

/-- The value stored under a key, if any. -/
def QSettings.lookup (s : QSettings) (key : String) : Option QVariant :=
  (s.find? (fun kv => decide (kv.1 = key))).map (fun kv => kv.2)

/-- The test `QSettings::contains`. -/
def QSettings.contains (s : QSettings) (key : String) : Bool :=
  (QSettings.lookup s key).isSome

/-- The read `QSettings::value(key, defaultValue)`. -/
def QSettings.value (s : QSettings) (key : String) (defaultValue : QVariant) : QVariant :=
  (QSettings.lookup s key).getD defaultValue

/-- The write `QSettings::setValue`: replaces the value of the key, or adds the
key. -/
def QSettings.setValue (s : QSettings) (key : String) (v : QVariant) : QSettings :=
  if QSettings.contains s key then
    s.map (fun kv => if kv.1 = key then (key, v) else kv)
  else s ++ [(key, v)]

/-- The key `MainWidget::CFG_WND_POS`. -/
def CFG_WND_POS : String := "windowPosition"
/-- The key `MainWidget::CFG_CENTERED`. -/
def CFG_CENTERED : String := "showCentered"
/-- The default `MainWidget::DEF_CENTERED`. -/
def DEF_CENTERED : Bool := true
/-- The key `MainWidget::CFG_THEME`. -/
def CFG_THEME : String := "theme"
/-- The default `MainWidget::DEF_THEME`. -/
def DEF_THEME : String := "Standard"
/-- The key `MainWidget::CFG_HIDE_ON_FOCUS_LOSS`. -/
def CFG_HIDE_ON_FOCUS_LOSS : String := "hideOnFocusLoss"
/-- The default `MainWidget::DEF_HIDE_ON_FOCUS_LOSS`. -/
def DEF_HIDE_ON_FOCUS_LOSS : Bool := true

/-- The widget when the settings part of the constructor starts: hidden, at the
origin, with the size the layout gave it, nothing emitted, no timer scheduled.
The constructor never assigns `hideOnFocusLoss_`, so the value the member has
is a parameter, as is the stylesheet the application has. -/
def MainWidget.initial (width height : Int) (hideOnFocusLoss0 : Bool)
    (styleSheet0 : String) : MainWidget :=
  { visible := false, pos := ⟨0, 0⟩, width := width, height := height, active := false,
    inputLine := "", showCentered_ := false, theme_ := "",
    hideOnFocusLoss_ := hideOnFocusLoss0, emitted := [], styleSheet := styleSheet0,
    fileOpens := [], now := 0, timers := [] }

/-- The settings part of the constructor `MainWidget::MainWidget`; an error is
the fatal exit when the stylesheet of the configured theme is not found. -/
def MainWidget.construct (s : QSettings) (themeDirs : List (List QFileInfo))
    (width height : Int) (hideOnFocusLoss0 : Bool) (styleSheet0 : String) :
    Except String MainWidget :=
  let w0 := MainWidget.initial width height hideOnFocusLoss0 styleSheet0
  -- showCentered_ = s.value(CFG_CENTERED, DEF_CENTERED).toBool();
  let w1 := { w0 with
    showCentered_ := (QSettings.value s CFG_CENTERED (QVariant.bool DEF_CENTERED)).toBool }
  -- theme_ = s.value(CFG_THEME, DEF_THEME).toString();
  let w2 := { w1 with
    theme_ := (QSettings.value s CFG_THEME (QVariant.string DEF_THEME)).toString }
  -- if (!setTheme(theme_)) { qFatal(...); exit(EXIT_FAILURE); }
  match w2.setTheme themeDirs w2.theme_ with
  | (false, w3) => Except.error ("FATAL: Stylefile not found: " ++ w3.theme_)
  | (true, w3) =>
    -- if (s.contains(CFG_WND_POS) && s.value(CFG_WND_POS).canConvert(QMetaType::QPoint))
    --     move(s.value(CFG_WND_POS).toPoint());
    match QSettings.lookup s CFG_WND_POS with
    | some v => if v.canConvertPoint then Except.ok (w3.move v.toPoint) else Except.ok w3
    | none => Except.ok w3

/-- The destructor `MainWidget::~MainWidget`: the store after the three writes. -/
def MainWidget.destruct (w : MainWidget) (s : QSettings) : QSettings :=
  -- s.setValue(CFG_CENTERED, showCentered_);
  let s1 := QSettings.setValue s CFG_CENTERED (QVariant.bool w.showCentered_)
  -- s.setValue(CFG_WND_POS, pos());
  let s2 := QSettings.setValue s1 CFG_WND_POS (QVariant.point w.pos)
  -- s.setValue(CFG_THEME, theme_);
  QSettings.setValue s2 CFG_THEME (QVariant.string w.theme_)

/-! ## The window's edges -/

/-- The x coordinate of the window's left edge. -/
def MainWidget.leftEdge (w : MainWidget) : Int := w.pos.x

/-- The x coordinate of the window's right edge: the last of its `width`
columns. -/
def MainWidget.rightEdge (w : MainWidget) : Int := w.pos.x + w.width - 1

/-- The y coordinate of the window's top edge. -/
def MainWidget.topEdge (w : MainWidget) : Int := w.pos.y

/-- The horizontal center of the window: the integer midpoint of its left and
right edges, halved with the truncating division of C++ as `QRect::center`
does, the convention of the screen center it is compared with. -/
def MainWidget.horizontalCenter (w : MainWidget) : Int :=
  Int.tdiv (w.leftEdge + w.rightEdge) 2

/-! ## Sample data -/

/-- A desktop with one 1920 x 1080 screen and the pointer on it. -/
def sampleDesktop : Desktop :=
  { cursorPos := ⟨100, 100⟩, screenNumber := fun _ => 0,
    availableGeometry := fun _ => QRect.ofSize 0 0 1920 1080 }

/-- A theme directory with the stylesheet of the default theme. -/
def sampleThemeDirs : List (List QFileInfo) :=
  [[⟨"Standard.qss", some "QWidget \x7b color: black; \x7d"⟩]]

/-- The widget right after construction from an empty store, 640 x 480. -/
def sampleWidget : MainWidget :=
  { visible := false, pos := ⟨0, 0⟩, width := 640, height := 480, active := false,
    inputLine := "", showCentered_ := true, theme_ := "Standard",
    hideOnFocusLoss_ := true, emitted := [],
    styleSheet := "QWidget \x7b color: black; \x7d",
    fileOpens := [⟨"Standard.qss", some "QWidget \x7b color: black; \x7d"⟩],
    now := 0, timers := [] }

/-- The unreadable stylesheet `Dark.qss`: listed, but `QFile::open` fails. -/
def unreadableDark : QFileInfo := ⟨"Dark.qss", none⟩

/-- A readable stylesheet `Dark.qss`. -/
def readableDark : QFileInfo := ⟨"Dark.qss", some "QWidget \x7b color: white; \x7d"⟩

/-- The sample widget after `show()`: visible and centered. -/
def shownWidget : MainWidget := sampleWidget.show sampleDesktop

/-- Events after a deactivation that never call `show()`, 50 ms in all. -/
def quietEvents : List Event :=
  [Event.elapse 20, Event.keyPress ⟨65, NoModifier, true⟩, Event.elapse 30]

/-- A store that holds `hideOnFocusLoss = false`. -/
def storeWithoutAutoHide : QSettings := [(CFG_HIDE_ON_FOCUS_LOSS, QVariant.bool false)]

/-- A desktop whose pointer is on a 1920 x 1080 screen left of the primary
one, with x coordinates from -1920 to -1. -/
def leftScreenDesktop : Desktop :=
  { cursorPos := ⟨-100, 100⟩, screenNumber := fun _ => 1,
    availableGeometry := fun _ => QRect.ofSize (-1920) 0 1920 1080 }

/-- A desktop whose pointer is on a screen so far up that its center has
`y = -2147483600`. -/
def farScreenDesktop : Desktop :=
  { cursorPos := ⟨0, -2147483600⟩, screenNumber := fun _ => 2,
    availableGeometry := fun _ => ⟨0, -2147483640, 1919, -2147483560⟩ }

/-- An unmodified press of the Escape key. -/
def escapeKey : QKeyEvent := { key := Key_Escape, modifiers := NoModifier, accepted := true }

/-- The window-deactivation event. -/
def deactivation : Event := Event.event QEventType.WindowDeactivate

/-! ## Visibility: theorems -/

theorem windowState_run (dw : Desktop) (w : MainWidget) (c : Call) :
    (c.run dw w).windowState = specStep w.windowState c := by
  cases c <;> cases hv : w.visible <;>
    simp [Call.run, specStep, MainWidget.windowState, MainWidget.show, MainWidget.hide,
      MainWidget.toggleVisibility, MainWidget.move, WindowState.opposite, hv] <;>
    split <;> rfl

/-- C1: for every initial state and every finite sequence of `show()`, `hide()`
and `toggleVisibility()` calls, the visibility after the sequence is the fold
of the two-state machine of the specification over the sequence; and a single
`show()` yields Visible, a single `hide()` yields Hidden, a single
`toggleVisibility()` yields the opposite of the state before the call. -/
theorem C1_visibility_is_fold (dw : Desktop) (w : MainWidget) (cs : List Call) :
    (runCalls dw w cs).windowState = cs.foldl specStep w.windowState ∧
    (w.show dw).windowState = WindowState.Visible ∧
    w.hide.windowState = WindowState.Hidden ∧
    (w.toggleVisibility dw).windowState = w.windowState.opposite := by
  refine ⟨?_, ?_, ?_, ?_⟩
  · induction cs generalizing w with
    | nil => rfl
    | cons c cs ih =>
      simp only [runCalls, List.foldl_cons] at ih ⊢
      rw [ih (c.run dw w), windowState_run]
  · exact windowState_run dw w Call.show
  · exact windowState_run dw w Call.hide
  · exact windowState_run dw w Call.toggleVisibility

/-! ## Themes: theorems -/

theorem foldl_append_eq (dirs : List (List QFileInfo)) (acc : List QFileInfo) :
    dirs.foldl (fun acc d => acc ++ d) acc = acc ++ dirs.flatten := by
  induction dirs generalizing acc with
  | nil => simp
  | cons d ds ih => simp [List.foldl_cons, ih, List.append_assoc]

theorem collectThemes_eq_flatten (dirs : List (List QFileInfo)) :
    collectThemes dirs = dirs.flatten := by
  simp [collectThemes, foldl_append_eq]

theorem mem_collectThemes (dirs : List (List QFileInfo)) (fi : QFileInfo) :
    fi ∈ collectThemes dirs ↔ ∃ d ∈ dirs, fi ∈ d := by
  simp [collectThemes_eq_flatten, List.mem_flatten]

theorem applyTheme_theme (l : List QFileInfo) (w : MainWidget) :
    (MainWidget.applyTheme l w).2.theme_ = w.theme_ := by
  induction l generalizing w with
  | nil => rfl
  | cons fi rest ih =>
    unfold MainWidget.applyTheme
    by_cases hb : fi.baseName = w.theme_
    · cases hc : fi.contents with
      | none => simp [hb, hc, ih]
      | some data => simp [hb, hc]
    · simp [hb, ih]

theorem applyTheme_success_iff (l : List QFileInfo) (w : MainWidget) :
    (MainWidget.applyTheme l w).1 = true ↔
      ∃ fi ∈ l, fi.baseName = w.theme_ ∧ fi.contents.isSome = true := by
  induction l generalizing w with
  | nil => simp [MainWidget.applyTheme]
  | cons fi rest ih =>
    unfold MainWidget.applyTheme
    by_cases hb : fi.baseName = w.theme_
    · cases hc : fi.contents with
      | none =>
        simp only [hb, hc, if_true]
        rw [ih]
        constructor
        · rintro ⟨g, hg, hgb, hgc⟩
          exact ⟨g, List.mem_cons_of_mem _ hg, hgb, hgc⟩
        · rintro ⟨g, hg, hgb, hgc⟩
          rcases List.mem_cons.mp hg with rfl | hg
          · simp [hc] at hgc
          · exact ⟨g, hg, hgb, hgc⟩
      | some data =>
        simp only [hb, hc, if_true, true_iff]
        exact ⟨fi, List.mem_cons_self _ _, hb, by simp [hc]⟩
    · simp only [hb, if_false]
      rw [ih]
      constructor
      · rintro ⟨g, hg, hgb, hgc⟩
        exact ⟨g, List.mem_cons_of_mem _ hg, hgb, hgc⟩
      · rintro ⟨g, hg, hgb, hgc⟩
        rcases List.mem_cons.mp hg with rfl | hg
        · exact absurd hgb hb
        · exact ⟨g, hg, hgb, hgc⟩

theorem applyTheme_failure_styleSheet (l : List QFileInfo) (w : MainWidget)
    (h : (MainWidget.applyTheme l w).1 = false) :
    (MainWidget.applyTheme l w).2.styleSheet = w.styleSheet := by
  induction l generalizing w with
  | nil => rfl
  | cons fi rest ih =>
    unfold MainWidget.applyTheme at h ⊢
    by_cases hb : fi.baseName = w.theme_
    · cases hc : fi.contents with
      | none =>
        simp only [hb, hc, if_true] at h ⊢
        rw [ih _ h]
      | some data => simp [hb, hc] at h
    · simp only [hb, if_false] at h ⊢
      exact ih _ h

theorem applyTheme_success_split (l : List QFileInfo) (w : MainWidget)
    (h : (MainWidget.applyTheme l w).1 = true) :
    ∃ pre fi post data, l = pre ++ fi :: post ∧
      fi.baseName = w.theme_ ∧ fi.contents = some data ∧
      (∀ g ∈ pre, g.baseName = w.theme_ → g.contents = none) ∧
      (MainWidget.applyTheme l w).2.styleSheet = data ∧
      (MainWidget.applyTheme l w).2.fileOpens =
        w.fileOpens ++ pre.filter (fun g => decide (g.baseName = w.theme_)) ++ [fi] := by
  induction l generalizing w with
  | nil => simp [MainWidget.applyTheme] at h
  | cons fi rest ih =>
    unfold MainWidget.applyTheme at h ⊢
    by_cases hb : fi.baseName = w.theme_
    · cases hc : fi.contents with
      | none =>
        simp only [hb, hc, if_true] at h ⊢
        obtain ⟨pre, g, post, data, hl, hgb, hgc, hpre, hss, hfo⟩ := ih _ h
        refine ⟨fi :: pre, g, post, data, by simp [hl], hgb, hgc, ?_, hss, ?_⟩
        · intro k hk hkb
          rcases List.mem_cons.mp hk with rfl | hk
          · exact hc
          · exact hpre k hk hkb
        · rw [hfo]
          simp [List.filter_cons, hb, List.append_assoc]
      | some data =>
        simp only [hb, hc, if_true]
        exact ⟨[], fi, rest, data, rfl, hb, hc, by simp, rfl, by simp⟩
    · simp only [hb, if_false] at h ⊢
      obtain ⟨pre, g, post, data, hl, hgb, hgc, hpre, hss, hfo⟩ := ih _ h
      refine ⟨fi :: pre, g, post, data, by simp [hl], hgb, hgc, ?_, hss, ?_⟩
      · intro k hk hkb
        rcases List.mem_cons.mp hk with rfl | hk
        · exact absurd hkb hb
        · exact hpre k hk hkb
      · rw [hfo]
        simp [List.filter_cons, hb]

theorem setTheme_success_iff (themeDirs : List (List QFileInfo)) (name : String)
    (w : MainWidget) :
    (w.setTheme themeDirs name).1 = true ↔
      ∃ d ∈ themeDirs, ∃ fi ∈ d, fi.baseName = name ∧ fi.contents.isSome = true := by
  unfold MainWidget.setTheme
  simp only
  rw [applyTheme_success_iff]
  constructor
  · rintro ⟨fi, hfi, hb, hc⟩
    obtain ⟨d, hd, hfd⟩ := (mem_collectThemes themeDirs fi).mp hfi
    exact ⟨d, hd, fi, hfd, hb, hc⟩
  · rintro ⟨d, hd, fi, hfd, hb, hc⟩
    exact ⟨fi, (mem_collectThemes themeDirs fi).mpr ⟨d, hd, hfd⟩, hb, hc⟩

/-- C2, as stated, fails: with a single theme directory whose only stylesheet
`Dark.qss` cannot be opened, a listed file with base name `Dark` exists and yet
`setTheme("Dark")` returns false. -/
theorem C2_counterexample :
    ¬ ((sampleWidget.setTheme [[unreadableDark]] "Dark").1 = true ↔
        ∃ d ∈ [[unreadableDark]], ∃ fi ∈ d, fi.baseName = "Dark") := by
  intro h
  have h1 : (sampleWidget.setTheme [[unreadableDark]] "Dark").1 = false := by decide
  have h2 : ∃ d ∈ [[unreadableDark]], ∃ fi ∈ d, fi.baseName = "Dark" :=
    ⟨[unreadableDark], by simp, unreadableDark, by simp, by decide⟩
  rw [h.mpr h2] at h1
  exact Bool.noConfusion h1

/-- C2, amended: for every theme name and every contents of the searched theme
directories, `setTheme(name)` returns true if and only if at least one searched
directory lists a stylesheet file whose base name equals `name` and that can be
opened for reading. -/
theorem C2_setTheme_true_iff (themeDirs : List (List QFileInfo)) (name : String)
    (w : MainWidget) :
    (w.setTheme themeDirs name).1 = true ↔
      ∃ d ∈ themeDirs, ∃ fi ∈ d, fi.baseName = name ∧ fi.contents.isSome = true :=
  setTheme_success_iff themeDirs name w

/-- C3, as stated, fails: the first `Dark.qss` (in the first directory) cannot
be opened and the second one (in the second directory) can; `setTheme("Dark")`
returns true, yet the stylesheet is not the contents of the first file whose
base name is `Dark`, and a file after that first match was opened. -/
theorem C3_counterexample :
    ¬ ((sampleWidget.setTheme [[unreadableDark], [readableDark]] "Dark").1 = true →
        ∃ fi, firstMatch "Dark" (collectThemes [[unreadableDark], [readableDark]]) = some fi ∧
          fi.contents =
            some (sampleWidget.setTheme [[unreadableDark], [readableDark]] "Dark").2.styleSheet ∧
          (sampleWidget.setTheme [[unreadableDark], [readableDark]] "Dark").2.fileOpens =
            sampleWidget.fileOpens ++ [fi]) := by
  intro h
  obtain ⟨fi, hfm, hc, _⟩ := h (by decide)
  have hf : firstMatch "Dark" (collectThemes [[unreadableDark], [readableDark]]) =
      some unreadableDark := by decide
  rw [hf] at hfm
  have hfi : unreadableDark = fi := Option.some.inj hfm
  rw [← hfi] at hc
  exact Option.noConfusion hc

/-- C3, amended: whenever `setTheme(name)` returns true, the application's
active stylesheet equals the full contents of the first file whose base name
equals `name` and that can be opened for reading, taking the directories in
the order the standard-path lookup reports them and the files of a directory in
enumeration order; the files opened are the matching files before it (each of
which failed to open) and that file, so no file after it is read or applied. -/
theorem C3_setTheme_applies_first_openable (themeDirs : List (List QFileInfo))
    (name : String) (w : MainWidget) (h : (w.setTheme themeDirs name).1 = true) :
    ∃ pre fi post data, collectThemes themeDirs = pre ++ fi :: post ∧
      fi.baseName = name ∧ fi.contents = some data ∧
      (∀ g ∈ pre, g.baseName = name → g.contents = none) ∧
      (w.setTheme themeDirs name).2.styleSheet = data ∧
      (w.setTheme themeDirs name).2.fileOpens =
        w.fileOpens ++ pre.filter (fun g => decide (g.baseName = name)) ++ [fi] := by
  unfold MainWidget.setTheme at h ⊢
  simp only at h ⊢
  exact applyTheme_success_split _ _ h

/-- C3, amended, at two directories with an unreadable and a readable
`Dark.qss`. -/
theorem C3_setTheme_applies_first_openable_witness :
    (sampleWidget.setTheme [[unreadableDark], [readableDark]] "Dark").1 = true ∧
    ∃ pre fi post data,
      collectThemes [[unreadableDark], [readableDark]] = pre ++ fi :: post ∧
      fi.baseName = "Dark" ∧ fi.contents = some data ∧
      (∀ g ∈ pre, g.baseName = "Dark" → g.contents = none) ∧
      (sampleWidget.setTheme [[unreadableDark], [readableDark]] "Dark").2.styleSheet = data ∧
      (sampleWidget.setTheme [[unreadableDark], [readableDark]] "Dark").2.fileOpens =
        sampleWidget.fileOpens ++ pre.filter (fun g => decide (g.baseName = "Dark")) ++ [fi] :=
  ⟨by decide,
    C3_setTheme_applies_first_openable [[unreadableDark], [readableDark]] "Dark" sampleWidget
      (by decide)⟩

/-- C4: for every name that matches no stylesheet file in any searched
directory, `setTheme(name)` returns false, leaves the application's stylesheet
unchanged, and records `name` as the current theme name, so that `theme()`
returns `name` afterwards. -/
theorem C4_setTheme_no_match (themeDirs : List (List QFileInfo)) (name : String)
    (w : MainWidget) (h : ∀ d ∈ themeDirs, ∀ fi ∈ d, fi.baseName ≠ name) :
    (w.setTheme themeDirs name).1 = false ∧
    (w.setTheme themeDirs name).2.styleSheet = w.styleSheet ∧
    (w.setTheme themeDirs name).2.theme = name := by
  have hf : (w.setTheme themeDirs name).1 = false := by
    cases hr : (w.setTheme themeDirs name).1 with
    | false => rfl
    | true =>
      obtain ⟨d, hd, fi, hfi, hb, _⟩ := (setTheme_success_iff themeDirs name w).mp hr
      exact absurd hb (h d hd fi hfi)
  refine ⟨hf, ?_, ?_⟩
  · unfold MainWidget.setTheme at hf ⊢
    simp only at hf ⊢
    rw [applyTheme_failure_styleSheet _ _ hf]
  · unfold MainWidget.setTheme MainWidget.theme
    simp only
    rw [applyTheme_theme]

/-- C4 at the sample theme directory and the name `Nope`. -/
theorem C4_setTheme_no_match_witness :
    (∀ d ∈ sampleThemeDirs, ∀ fi ∈ d, fi.baseName ≠ "Nope") ∧
    (sampleWidget.setTheme sampleThemeDirs "Nope").1 = false ∧
    (sampleWidget.setTheme sampleThemeDirs "Nope").2.styleSheet = sampleWidget.styleSheet ∧
    (sampleWidget.setTheme sampleThemeDirs "Nope").2.theme = "Nope" :=
  ⟨by decide, C4_setTheme_no_match sampleThemeDirs "Nope" sampleWidget (by decide)⟩

/-! ## Key presses: theorems -/

/-- C6: on an unmodified Escape key press `keyPressEvent` hides the window, but
the event is not accepted when `keyPressEvent` returns: after `e->accept()` the
function falls through to `QWidget::keyPressEvent`, which ignores the event. -/
theorem C6_escape_hides_event_not_accepted (w : MainWidget) (acc : Bool) :
    (w.keyPressEvent ⟨Key_Escape, NoModifier, acc⟩).1.visible = false ∧
    (w.keyPressEvent ⟨Key_Escape, NoModifier, acc⟩).2.accepted = false := by
  simp [MainWidget.keyPressEvent, QWidget_keyPressEvent, MainWidget.hide]

/-- C7, as stated, fails: an unmodified Escape on the hidden sample widget is
not a no-op, a `widgetHidden` notification is emitted. -/
theorem C7_counterexample :
    sampleWidget.visible = false ∧ escapeKey.key = Key_Escape ∧
    ¬ ((sampleWidget.keyPressEvent escapeKey).1.visible = sampleWidget.visible ∧
        (sampleWidget.keyPressEvent escapeKey).1.emitted = sampleWidget.emitted) := by
  decide

/-- C7, amended: `keyPressEvent` on an Escape key event leaves the visibility
state unchanged whenever the window is already Hidden or the event has any
modifier held; with a modifier held it is a no-op (the widget is unchanged, so
no notification is emitted), whereas an unmodified Escape on an already Hidden
window still runs `hide()` and emits one `widgetHidden` notification. -/
theorem C7_escape_visibility_unchanged (w : MainWidget) (e : QKeyEvent)
    (hk : e.key = Key_Escape) (h : w.visible = false ∨ e.modifiers ≠ NoModifier) :
    (w.keyPressEvent e).1.visible = w.visible ∧
    (e.modifiers ≠ NoModifier → (w.keyPressEvent e).1 = w) ∧
    (e.modifiers = NoModifier →
      (w.keyPressEvent e).1.emitted = w.emitted ++ [Signal.widgetHidden]) := by
  by_cases hm : e.modifiers = NoModifier
  · have hv : w.visible = false := by
      rcases h with h | h
      · exact h
      · exact absurd hm h
    simp [MainWidget.keyPressEvent, QWidget_keyPressEvent, MainWidget.hide, hm, hk, hv]
  · simp [MainWidget.keyPressEvent, QWidget_keyPressEvent, hm]

/-- C7, amended, at the hidden sample widget and an unmodified Escape. -/
theorem C7_escape_visibility_unchanged_witness :
    (sampleWidget.keyPressEvent escapeKey).1.visible = sampleWidget.visible ∧
    (escapeKey.modifiers ≠ NoModifier → (sampleWidget.keyPressEvent escapeKey).1 = sampleWidget) ∧
    (escapeKey.modifiers = NoModifier →
      (sampleWidget.keyPressEvent escapeKey).1.emitted =
        sampleWidget.emitted ++ [Signal.widgetHidden]) :=
  C7_escape_visibility_unchanged sampleWidget escapeKey rfl (Or.inl rfl)

/-! ## The delayed hide: theorems -/

theorem foldl_hide_timers (l : List Nat) (w : MainWidget) :
    (l.foldl (fun acc _ => acc.hide) w).timers = w.timers := by
  induction l generalizing w with
  | nil => rfl
  | cons d ds ih =>
    simp only [List.foldl_cons]
    rw [ih]
    rfl

theorem foldl_hide_now (l : List Nat) (w : MainWidget) :
    (l.foldl (fun acc _ => acc.hide) w).now = w.now := by
  induction l generalizing w with
  | nil => rfl
  | cons d ds ih =>
    simp only [List.foldl_cons]
    rw [ih]
    rfl

theorem foldl_hide_visible (l : List Nat) (w : MainWidget) (h : w.visible = false ∨ l ≠ []) :
    (l.foldl (fun acc _ => acc.hide) w).visible = false := by
  induction l generalizing w with
  | nil =>
    rcases h with h | h
    · exact h
    · exact absurd rfl h
  | cons d ds ih =>
    simp only [List.foldl_cons]
    exact ih _ (Or.inl (by simp [MainWidget.hide]))

theorem elapse_timers (dt : Nat) (w : MainWidget) :
    (w.elapse dt).timers = w.timers.filter (fun d => decide (w.now + dt < d)) := by
  simp [MainWidget.elapse, foldl_hide_timers]

theorem elapse_now (dt : Nat) (w : MainWidget) : (w.elapse dt).now = w.now + dt := by
  simp [MainWidget.elapse, foldl_hide_now]

theorem elapse_visible_of_hidden (dt : Nat) (w : MainWidget) (h : w.visible = false) :
    (w.elapse dt).visible = false := by
  unfold MainWidget.elapse
  exact foldl_hide_visible _ _ (Or.inl h)

theorem elapse_visible_of_due (dt : Nat) (w : MainWidget) (d : Nat) (hd : d ∈ w.timers)
    (hdue : d ≤ w.now + dt) : (w.elapse dt).visible = false := by
  unfold MainWidget.elapse
  apply foldl_hide_visible
  right
  intro hnil
  have hmem : d ∈ w.timers.filter (fun d => decide (d ≤ w.now + dt)) := by
    simp [List.mem_filter, hd, hdue]
  rw [hnil] at hmem
  exact absurd hmem (List.not_mem_nil _)

theorem hideAssured_run (dw : Desktop) (T : Nat) (w : MainWidget) (e : Event)
    (hs : e.callsShow w = false) (h : hideAssured T w) : hideAssured T (e.run dw w) := by
  rcases e with _ | _ | _ | k | t | dt
  · simp [Event.callsShow] at hs
  · exact Or.inl (by simp [Event.run, MainWidget.hide])
  · simp [Event.callsShow] at hs
    exact Or.inl (by simp [Event.run, MainWidget.toggleVisibility, hs, MainWidget.hide])
  · by_cases hc : k.modifiers = NoModifier ∧ k.key = Key_Escape
    · exact Or.inl (by
        simp [Event.run, MainWidget.keyPressEvent, QWidget_keyPressEvent, MainWidget.hide, hc])
    · have : (Event.run dw w (Event.keyPress k)) = w := by
        simp [Event.run, MainWidget.keyPressEvent, QWidget_keyPressEvent, hc]
      rw [this]; exact h
  · rcases h with h | ⟨d, hd, hT, hn⟩
    · left
      simp only [Event.run, MainWidget.event, MainWidget.singleShotHide]
      split_ifs <;> exact h
    · right
      refine ⟨d, ?_, hT, ?_⟩
      · simp only [Event.run, MainWidget.event, MainWidget.singleShotHide]
        split_ifs <;> simp [hd]
      · simp only [Event.run, MainWidget.event, MainWidget.singleShotHide]
        split_ifs <;> exact hn
  · rcases h with h | ⟨d, hd, hT, hn⟩
    · exact Or.inl (elapse_visible_of_hidden dt w h)
    · by_cases hdue : d ≤ w.now + dt
      · exact Or.inl (elapse_visible_of_due dt w d hd hdue)
      · right
        have hlt : w.now + dt < d := Nat.lt_of_not_le hdue
        refine ⟨d, ?_, hT, ?_⟩
        · simp only [Event.run]
          rw [elapse_timers]
          simp [List.mem_filter, hd, hlt]
        · simp only [Event.run]
          rw [elapse_now]
          exact hlt

theorem hideAssured_runEvents (dw : Desktop) (T : Nat) (es : List Event) (w : MainWidget)
    (hs : noShowCalled dw w es = true) (h : hideAssured T w) :
    hideAssured T (runEvents dw w es) := by
  induction es generalizing w with
  | nil => exact h
  | cons e es ih =>
    simp only [noShowCalled, Bool.and_eq_true, Bool.not_eq_true'] at hs
    simp only [runEvents, List.foldl_cons]
    exact ih (e.run dw w) hs.2 (hideAssured_run dw T w e hs.1 h)

/-- C5: handling a window-deactivation event schedules no hide when
`hideOnFocusLoss` is false and exactly one hide, due 50 milliseconds from now,
when it is true (the widget is otherwise unchanged); in the latter case, if no
`show()` is called in the events that follow, the window is hidden once the 50
milliseconds have passed, that is once the scheduled hide has run. -/
theorem C5_deactivation_schedules_delayed_hide (dw : Desktop) (w : MainWidget)
    (es : List Event) :
    w.event QEventType.WindowDeactivate =
      { w with timers := if w.hideOnFocusLoss_ then w.timers ++ [w.now + 50] else w.timers } ∧
    (w.hideOnFocusLoss_ = true →
      noShowCalled dw (w.event QEventType.WindowDeactivate) es = true →
      w.now + 50 ≤ (runEvents dw (w.event QEventType.WindowDeactivate) es).now →
      (runEvents dw (w.event QEventType.WindowDeactivate) es).visible = false) := by
  constructor
  · obtain ⟨v, p, wd, ht, a, il, sc, th, hf, em, ss, fo, n, ts⟩ := w
    cases hf <;> simp [MainWidget.event, MainWidget.singleShotHide]
  · intro hf hns ht
    have h0 : hideAssured (w.now + 50) (w.event QEventType.WindowDeactivate) := by
      right
      refine ⟨w.now + 50, ?_, Nat.le_refl _, ?_⟩
      · simp [MainWidget.event, MainWidget.singleShotHide, hf]
      · simp [MainWidget.event, MainWidget.singleShotHide, hf]
    rcases hideAssured_runEvents dw (w.now + 50) es _ hns h0 with h | ⟨d, _, hT, hn⟩
    · exact h
    · exact absurd (Nat.lt_of_le_of_lt (Nat.le_trans hT ht) hn) (Nat.lt_irrefl _)

/-- C5 at the shown sample widget, followed by 50 ms without a `show()`. -/
theorem C5_deactivation_schedules_delayed_hide_witness :
    shownWidget.visible = true ∧ shownWidget.hideOnFocusLoss_ = true ∧
    (shownWidget.event QEventType.WindowDeactivate).timers = [50] ∧
    (runEvents sampleDesktop (shownWidget.event QEventType.WindowDeactivate)
      quietEvents).visible = false :=
  ⟨by decide, by decide, by decide,
    (C5_deactivation_schedules_delayed_hide sampleDesktop shownWidget quietEvents).2
      (by decide) (by decide) (by decide)⟩

theorem foldl_hide_flag (l : List Nat) (w : MainWidget) :
    (l.foldl (fun acc _ => acc.hide) w).hideOnFocusLoss_ = w.hideOnFocusLoss_ := by
  induction l generalizing w with
  | nil => rfl
  | cons d ds ih =>
    simp only [List.foldl_cons]
    rw [ih]
    rfl

theorem run_now (dw : Desktop) (w : MainWidget) (e : Event) :
    (e.run dw w).now = w.now + e.duration := by
  rcases e with _ | _ | _ | k | t | dt
  · simp only [Event.run, MainWidget.show, MainWidget.move, Event.duration]
    split_ifs <;> simp
  · simp [Event.run, MainWidget.hide, Event.duration]
  · simp only [Event.run, MainWidget.toggleVisibility, MainWidget.show, MainWidget.hide,
      MainWidget.move, Event.duration]
    split_ifs <;> simp
  · simp only [Event.run, MainWidget.keyPressEvent, QWidget_keyPressEvent, MainWidget.hide,
      Event.duration]
    split_ifs <;> simp
  · simp only [Event.run, MainWidget.event, MainWidget.singleShotHide, Event.duration]
    split_ifs <;> simp
  · exact elapse_now dt w

theorem run_flag (dw : Desktop) (w : MainWidget) (e : Event) :
    (e.run dw w).hideOnFocusLoss_ = w.hideOnFocusLoss_ := by
  rcases e with _ | _ | _ | k | t | dt
  · simp only [Event.run, MainWidget.show, MainWidget.move]
    split_ifs <;> simp
  · simp [Event.run, MainWidget.hide]
  · simp only [Event.run, MainWidget.toggleVisibility, MainWidget.show, MainWidget.hide,
      MainWidget.move]
    split_ifs <;> simp
  · simp only [Event.run, MainWidget.keyPressEvent, QWidget_keyPressEvent, MainWidget.hide]
    split_ifs <;> simp
  · simp only [Event.run, MainWidget.event, MainWidget.singleShotHide]
    split_ifs <;> simp
  · simp only [Event.run, MainWidget.elapse]
    rw [foldl_hide_flag]

/-- What one event does to the list of outstanding requests: a deactivation
with `hideOnFocusLoss_` set appends one request due 50 ms from now, the passing
of time removes exactly the requests that are due, and nothing else, `show()`
included, touches the list. -/
theorem run_timers (dw : Desktop) (w : MainWidget) (e : Event) :
    (e.run dw w).timers =
      match e with
      | Event.elapse dt => w.timers.filter (fun d => decide (w.now + dt < d))
      | _ => w.timers ++ e.requests w.hideOnFocusLoss_ w.now := by
  rcases e with _ | _ | _ | k | t | dt
  · simp only [Event.run, MainWidget.show, MainWidget.move, Event.requests]
    split_ifs <;> simp_all
  · simp [Event.run, MainWidget.hide, Event.requests]
  · simp only [Event.run, MainWidget.toggleVisibility, MainWidget.show, MainWidget.hide,
      MainWidget.move, Event.requests]
    split_ifs <;> simp_all
  · simp only [Event.run, MainWidget.keyPressEvent, QWidget_keyPressEvent, MainWidget.hide,
      Event.requests]
    split_ifs <;> simp_all
  · cases t with
    | WindowDeactivate =>
      simp only [Event.run, MainWidget.event, MainWidget.singleShotHide, Event.requests]
      split_ifs <;> simp_all
    | other c => simp [Event.run, MainWidget.event, Event.requests]
  · simp only [Event.run]
    exact elapse_timers dt w

theorem requests_deadline (flag : Bool) (now : Nat) (e : Event) :
    ∀ d ∈ e.requests flag now, now < d := by
  intro d hd
  unfold Event.requests at hd
  split_ifs at hd <;> simp at hd
  omega

theorem requests_elapse (flag : Bool) (now dt : Nat) :
    (Event.elapse dt).requests flag now = [] := by
  simp [Event.requests]

/-- From a state with no request due, the requests outstanding after an event
are the earlier ones and the ones the event makes, less those due by then. -/
theorem run_timers_pending (dw : Desktop) (w : MainWidget) (e : Event)
    (hwf : timersPending w) :
    (e.run dw w).timers =
      (w.timers ++ e.requests w.hideOnFocusLoss_ w.now).filter
        (fun d => decide ((e.run dw w).now < d)) := by
  rw [run_now, run_timers]
  rcases e with _ | _ | _ | k | t | dt
  case elapse =>
    simp only [requests_elapse, List.append_nil, Event.duration]
  all_goals
    simp only [Event.duration, Nat.add_zero]
    symm
    apply List.filter_eq_self.mpr
    intro d hd
    rcases List.mem_append.mp hd with h | h
    · simpa using hwf d h
    · simpa using requests_deadline _ _ _ d h

theorem run_pending (dw : Desktop) (w : MainWidget) (e : Event) (hwf : timersPending w) :
    timersPending (e.run dw w) := by
  intro d hd
  rw [run_timers_pending dw w e hwf] at hd
  simpa using (List.mem_filter.mp hd).2

theorem runEvents_cons (dw : Desktop) (w : MainWidget) (e : Event) (es : List Event) :
    runEvents dw w (e :: es) = runEvents dw (e.run dw w) es := rfl

theorem runEvents_now_le (dw : Desktop) (es : List Event) (w : MainWidget) :
    w.now ≤ (runEvents dw w es).now := by
  induction es generalizing w with
  | nil => exact Nat.le_refl _
  | cons e es ih =>
    rw [runEvents_cons]
    have h := ih (e.run dw w)
    rw [run_now] at h
    omega

theorem runEvents_timers (dw : Desktop) (es : List Event) (w : MainWidget)
    (hwf : timersPending w) :
    (runEvents dw w es).timers =
      (w.timers ++ requested w.hideOnFocusLoss_ w.now es).filter
        (fun d => decide ((runEvents dw w es).now < d)) := by
  induction es generalizing w with
  | nil =>
    simp only [runEvents, List.foldl_nil, requested, List.append_nil]
    symm
    apply List.filter_eq_self.mpr
    intro d hd
    simpa using hwf d hd
  | cons e es ih =>
    rw [runEvents_cons, ih (e.run dw w) (run_pending dw w e hwf)]
    have hle := runEvents_now_le dw es (e.run dw w)
    rw [run_timers_pending dw w e hwf, run_flag, run_now dw w e]
    rw [run_now dw w e] at hle
    simp only [requested, List.filter_append, List.filter_filter, List.append_assoc]
    congr 1
    · apply List.filter_congr
      intro d _
      by_cases h : (runEvents dw (e.run dw w) es).now < d
      · have h2 : w.now + e.duration < d := by omega
        simp [h, h2]
      · simp [h]
    · congr 1
      apply List.filter_congr
      intro d _
      by_cases h : (runEvents dw (e.run dw w) es).now < d
      · have h2 : w.now + e.duration < d := by omega
        simp [h, h2]
      · simp [h]

theorem requested_length (flag : Bool) (es : List Event) (now : Nat) :
    (requested flag now es).length = if flag then countDeactivations es else 0 := by
  induction es generalizing now with
  | nil => simp [requested, countDeactivations]
  | cons e es ih =>
    simp only [requested, List.length_append, ih, countDeactivations, List.countP_cons,
      Event.requests]
    cases flag <;> by_cases h : e = Event.event QEventType.WindowDeactivate <;>
      first | (simp [h]; done) | (simp [h]; omega)

/-- C10, as stated, fails: with `hideOnFocusLoss` set, after two deactivation
events on the freshly constructed sample widget two delayed-hide requests are
outstanding. -/
theorem C10_counterexample :
    ¬ ((runEvents sampleDesktop (sampleWidget.setHideOnFocusLoss true)
        [deactivation, deactivation]).timers.length ≤ 1) := by
  decide

/-- C10, amended: in every state reached from a state with no request due by
any sequence of show, hide, toggleVisibility, key-press, deactivation and
timer-expiry events, the outstanding delayed-hide requests are exactly the
earlier ones and the ones made by the deactivation events handled, one per
deactivation with `hideOnFocusLoss` set, less those whose deadline has been
reached: no request is deduplicated or cancelled, `show()` included. Their
number is at most the number outstanding at the start plus the number of
deactivation events handled, and can exceed one. -/
theorem C10_outstanding_requests (dw : Desktop) (w : MainWidget) (es : List Event)
    (hwf : timersPending w) :
    (runEvents dw w es).timers =
      (w.timers ++ requested w.hideOnFocusLoss_ w.now es).filter
        (fun d => decide ((runEvents dw w es).now < d)) ∧
    (requested w.hideOnFocusLoss_ w.now es).length =
      (if w.hideOnFocusLoss_ then countDeactivations es else 0) ∧
    (runEvents dw w es).timers.length ≤ w.timers.length + countDeactivations es := by
  have h1 := runEvents_timers dw es w hwf
  have h2 := requested_length w.hideOnFocusLoss_ es w.now
  refine ⟨h1, h2, ?_⟩
  rw [h1]
  refine Nat.le_trans (List.length_filter_le _ _) ?_
  rw [List.length_append, h2]
  split_ifs <;> omega

/-- C10, amended, at the freshly constructed sample widget: after a
deactivation, 20 ms, `show()`, a second deactivation and 10 ms more, both
requests, due at 50 and 70 ms, are outstanding. -/
theorem C10_outstanding_requests_witness :
    timersPending sampleWidget ∧
    requested sampleWidget.hideOnFocusLoss_ sampleWidget.now busyEvents = [50, 70] ∧
    (runEvents sampleDesktop sampleWidget busyEvents).now = 30 ∧
    (runEvents sampleDesktop sampleWidget busyEvents).timers = [50, 70] := by
  have hwf : timersPending sampleWidget := by
    intro d hd
    cases hd
  have h := (C10_outstanding_requests sampleDesktop sampleWidget busyEvents hwf).1
  have hr : requested sampleWidget.hideOnFocusLoss_ sampleWidget.now busyEvents = [50, 70] := by
    decide
  have hn : (runEvents sampleDesktop sampleWidget busyEvents).now = 30 := by decide
  rw [hr, hn] at h
  exact ⟨hwf, hr, hn, h.trans (by decide)⟩

/-! ## Centered positioning: theorems -/

theorem wrap32_range (n : Int) : -2147483648 ≤ wrap32 n ∧ wrap32 n ≤ 2147483647 := by
  unfold wrap32
  omega

theorem wrap32_eq (n : Int) (h1 : -2147483648 ≤ n) (h2 : n ≤ 2147483647) : wrap32 n = n := by
  unfold wrap32
  omega

theorem tdiv_two (a : Int) : Int.tdiv a 2 = if 0 ≤ a then a / 2 else -((-a) / 2) := by
  by_cases h : 0 ≤ a
  · rw [if_pos h]
    exact Int.tdiv_eq_ediv h (by omega)
  · rw [if_neg h]
    have h1 : Int.tdiv (-(-a)) 2 = -(Int.tdiv (-a) 2) := Int.neg_tdiv (-a) 2
    rw [Int.neg_neg] at h1
    rw [h1, Int.tdiv_eq_ediv (by omega) (by omega)]

theorem show_pos_centered (dw : Desktop) (w : MainWidget) (hc : w.showCentered_ = true) :
    (w.show dw).pos =
      ⟨wrap32 ((dw.availableGeometry (dw.screenNumber dw.cursorPos)).center.x
          - Int.tdiv (wrap32 (0 + w.width - 1)) 2),
        wrap32 ((dw.availableGeometry (dw.screenNumber dw.cursorPos)).center.y - 192)⟩ := by
  simp [MainWidget.show, MainWidget.move, MainWidget.rect, QRect.ofSize, QRect.right,
    QPoint.sub, hc]

theorem show_width (dw : Desktop) (w : MainWidget) : (w.show dw).width = w.width := by
  simp only [MainWidget.show, MainWidget.move]
  split_ifs <;> rfl

theorem center_range (r : QRect) :
    (-2147483648 ≤ r.center.x ∧ r.center.x ≤ 2147483647) ∧
    (-2147483648 ≤ r.center.y ∧ r.center.y ≤ 2147483647) :=
  ⟨wrap32_range _, wrap32_range _⟩

/-- Where `show()` puts a centered window when the two `int` subtractions do
not overflow. -/
theorem show_pos_exact (dw : Desktop) (w : MainWidget) (hc : w.showCentered_ = true)
    (hw : 1 ≤ w.width) (hmax : w.width ≤ 2147483647)
    (hy : -2147483648 ≤ (dw.availableGeometry (dw.screenNumber dw.cursorPos)).center.y - 192)
    (hx : -2147483648 ≤ (dw.availableGeometry (dw.screenNumber dw.cursorPos)).center.x
      - Int.tdiv (w.width - 1) 2) :
    (w.show dw).pos =
      ⟨(dw.availableGeometry (dw.screenNumber dw.cursorPos)).center.x - (w.width - 1) / 2,
        (dw.availableGeometry (dw.screenNumber dw.cursorPos)).center.y - 192⟩ := by
  have hr := center_range (dw.availableGeometry (dw.screenNumber dw.cursorPos))
  have hdiv : Int.tdiv (w.width - 1) 2 = (w.width - 1) / 2 :=
    Int.tdiv_eq_ediv (by omega) (by omega)
  rw [hdiv] at hx
  rw [show_pos_centered dw w hc]
  have h0 : wrap32 (0 + w.width - 1) = w.width - 1 := by
    rw [wrap32_eq _ (by omega) (by omega)]; omega
  rw [h0, hdiv, wrap32_eq _ hx (by omega), wrap32_eq _ hy (by omega)]

/-- C8, as stated, fails: on a screen left of the primary one (x from -1920 to
-1, center `(-960, 539)`) the 640 wide window is moved to the columns -1279 to
-640, whose integer midpoint, with the division `QRect::center` uses, is -959,
not the center -960 of the screen. -/
theorem C8_counterexample :
    sampleWidget.showCentered_ = true ∧ 1 ≤ sampleWidget.width ∧
    (leftScreenDesktop.availableGeometry
      (leftScreenDesktop.screenNumber leftScreenDesktop.cursorPos)).center = ⟨-960, 539⟩ ∧
    (sampleWidget.show leftScreenDesktop).leftEdge = -1279 ∧
    (sampleWidget.show leftScreenDesktop).rightEdge = -640 ∧
    ¬ ((sampleWidget.show leftScreenDesktop).topEdge =
          (leftScreenDesktop.availableGeometry
            (leftScreenDesktop.screenNumber leftScreenDesktop.cursorPos)).center.y - 192 ∧
        (sampleWidget.show leftScreenDesktop).horizontalCenter =
          (leftScreenDesktop.availableGeometry
            (leftScreenDesktop.screenNumber leftScreenDesktop.cursorPos)).center.x) := by
  decide

/-- The `int` subtraction of `show()` wraps: with the screen center at
`y = -2147483600` the top edge lands at `2147483504`, not 192 above the
center. -/
theorem show_wraps_top_edge :
    (farScreenDesktop.availableGeometry
      (farScreenDesktop.screenNumber farScreenDesktop.cursorPos)).center.y = -2147483600 ∧
    (sampleWidget.show farScreenDesktop).topEdge = 2147483504 := by
  decide

/-- C8, amended: when `showCentered` is true, for every window width `w` with
`1 <= w` (an `int`), every previous window position and every available
geometry of the screen under the pointer with center `(cx, cy)`, provided the
two subtractions `cy - 192` and `cx - (w - 1) / 2` do not fall below the `int`
range, `show()` moves the window so that its top edge is exactly 192 units
above `cy` and the sum of its left and right edges is `2 cx` for an odd and
`2 cx + 1` for an even width; so its horizontal center, the integer midpoint of
the two edges truncated towards zero, equals `cx` whenever the width is odd or
`cx >= 0`, and is `cx + 1` for an even width and `cx < 0`. The resulting
position does not depend on the window's previous position. -/
theorem C8_show_centers_window (dw : Desktop) (w : MainWidget)
    (hc : w.showCentered_ = true) (hw : 1 ≤ w.width) (hmax : w.width ≤ 2147483647)
    (hy : -2147483648 ≤ (dw.availableGeometry (dw.screenNumber dw.cursorPos)).center.y - 192)
    (hx : -2147483648 ≤ (dw.availableGeometry (dw.screenNumber dw.cursorPos)).center.x
      - Int.tdiv (w.width - 1) 2) :
    (w.show dw).topEdge =
      (dw.availableGeometry (dw.screenNumber dw.cursorPos)).center.y - 192 ∧
    (w.show dw).leftEdge + (w.show dw).rightEdge =
      2 * (dw.availableGeometry (dw.screenNumber dw.cursorPos)).center.x
        + (w.width - 1) % 2 ∧
    (w.width % 2 = 1 ∨ 0 ≤ (dw.availableGeometry (dw.screenNumber dw.cursorPos)).center.x →
      (w.show dw).horizontalCenter =
        (dw.availableGeometry (dw.screenNumber dw.cursorPos)).center.x) ∧
    (w.width % 2 = 0 → (dw.availableGeometry (dw.screenNumber dw.cursorPos)).center.x < 0 →
      (w.show dw).horizontalCenter =
        (dw.availableGeometry (dw.screenNumber dw.cursorPos)).center.x + 1) ∧
    ∀ p : QPoint, (MainWidget.show dw { w with pos := p }).pos = (w.show dw).pos := by
  have hp := show_pos_exact dw w hc hw hmax hy hx
  have hwd := show_width dw w
  generalize (dw.availableGeometry (dw.screenNumber dw.cursorPos)).center = c at hp hy hx ⊢
  refine ⟨?_, ?_, ?_, ?_, ?_⟩
  · simp only [MainWidget.topEdge, hp]
  · simp only [MainWidget.leftEdge, MainWidget.rightEdge, hp, hwd]
    omega
  · intro h
    simp only [MainWidget.horizontalCenter, MainWidget.leftEdge, MainWidget.rightEdge, hp,
      hwd, tdiv_two]
    split_ifs <;> omega
  · intro h1 h2
    simp only [MainWidget.horizontalCenter, MainWidget.leftEdge, MainWidget.rightEdge, hp,
      hwd, tdiv_two]
    split_ifs <;> omega
  · intro p
    rw [show_pos_centered dw { w with pos := p } hc, show_pos_centered dw w hc]

/-- C8, amended, at the sample widget (640 wide): on the 1920 x 1080 sample
screen, center `(959, 539)`, the midpoint is 959; on the screen left of it,
center `(-960, 539)`, the midpoint is -959. -/
theorem C8_show_centers_window_witness :
    ((sampleWidget.show sampleDesktop).topEdge = 539 - 192 ∧
      (sampleWidget.show sampleDesktop).horizontalCenter = 959) ∧
    ((sampleWidget.show leftScreenDesktop).topEdge = 539 - 192 ∧
      (sampleWidget.show leftScreenDesktop).horizontalCenter = -960 + 1) := by
  have h1 := C8_show_centers_window sampleDesktop sampleWidget rfl (by decide) (by decide)
    (by decide) (by decide)
  have h2 := C8_show_centers_window leftScreenDesktop sampleWidget rfl (by decide) (by decide)
    (by decide) (by decide)
  have c1 : (sampleDesktop.availableGeometry
      (sampleDesktop.screenNumber sampleDesktop.cursorPos)).center = ⟨959, 539⟩ := by decide
  have c2 : (leftScreenDesktop.availableGeometry
      (leftScreenDesktop.screenNumber leftScreenDesktop.cursorPos)).center = ⟨-960, 539⟩ := by
    decide
  rw [c1] at h1
  rw [c2] at h2
  exact ⟨⟨h1.1, h1.2.2.1 (Or.inr (by decide))⟩, ⟨h2.1, h2.2.2.2.1 (by decide) (by decide)⟩⟩

/-! ## Settings: theorems -/

/-- The sample widget is what the constructor yields from an empty store. -/
theorem construct_sample :
    MainWidget.construct [] sampleThemeDirs 640 480 true "" = Except.ok sampleWidget := by
  rfl

theorem lookup_map_replace (s : QSettings) (k key : String) (v : QVariant) :
    QSettings.lookup (s.map (fun kv => if kv.1 = k then (k, v) else kv)) key =
      if key = k then (QSettings.lookup s k).map (fun _ => v) else QSettings.lookup s key := by
  induction s with
  | nil => simp [QSettings.lookup]
  | cons kv rest ih =>
    simp only [QSettings.lookup] at ih ⊢
    by_cases h1 : kv.1 = k
    · by_cases h2 : key = k
      · simp [List.find?_cons, h1, h2]
      · have h3 : ¬ k = key := fun h => h2 h.symm
        simp only [List.map_cons, h1, if_true, List.find?_cons, h3, decide_False, h2, if_false]
        simpa [h2] using ih
    · by_cases h2 : key = k
      · have h3 : ¬ kv.1 = key := fun h => h1 (h.trans h2)
        simp only [List.map_cons, h1, if_false, List.find?_cons, h3, decide_False, h2, if_true]
        simpa [h2] using ih
      · by_cases h4 : kv.1 = key
        · simp [List.find?_cons, h1, h2, h4]
        · simp only [List.map_cons, h1, if_false, List.find?_cons, h4, decide_False, h2]
          simpa [h2] using ih

theorem lookup_append_single (s : QSettings) (k key : String) (v : QVariant) :
    QSettings.lookup (s ++ [(k, v)]) key =
      (QSettings.lookup s key).orElse (fun _ => if k = key then some v else none) := by
  induction s with
  | nil => by_cases h : k = key <;> simp [QSettings.lookup, List.find?_cons, h]
  | cons kv rest ih =>
    simp only [QSettings.lookup] at ih ⊢
    by_cases h4 : kv.1 = key
    · simp [List.find?_cons, h4]
    · simp only [List.cons_append, List.find?_cons, h4, decide_False]
      exact ih

theorem lookup_setValue_same (s : QSettings) (k : String) (v : QVariant) :
    QSettings.lookup (QSettings.setValue s k v) k = some v := by
  unfold QSettings.setValue
  by_cases hc : QSettings.contains s k = true
  · simp only [hc, if_true]
    rw [lookup_map_replace]
    simp only [if_true]
    unfold QSettings.contains at hc
    cases hl : QSettings.lookup s k with
    | none => simp [hl] at hc
    | some x => rfl
  · simp only [hc, Bool.false_eq_true, if_false]
    rw [lookup_append_single]
    unfold QSettings.contains at hc
    cases hl : QSettings.lookup s k with
    | none => simp
    | some x => simp [hl] at hc

theorem lookup_setValue_other (s : QSettings) (k key : String) (v : QVariant) (h : key ≠ k) :
    QSettings.lookup (QSettings.setValue s k v) key = QSettings.lookup s key := by
  unfold QSettings.setValue
  by_cases hc : QSettings.contains s k = true
  · simp only [hc, if_true]
    rw [lookup_map_replace]
    simp [h]
  · simp only [hc, Bool.false_eq_true, if_false]
    rw [lookup_append_single]
    have h2 : ¬ k = key := fun e => h e.symm
    cases hl : QSettings.lookup s key <;> simp [h2]

/-- What the destructor leaves in the store: the three keys it writes hold the
current values, every other key is as before. -/
theorem destruct_lookup (w : MainWidget) (s : QSettings) :
    QSettings.lookup (w.destruct s) CFG_CENTERED = some (QVariant.bool w.showCentered_) ∧
    QSettings.lookup (w.destruct s) CFG_WND_POS = some (QVariant.point w.pos) ∧
    QSettings.lookup (w.destruct s) CFG_THEME = some (QVariant.string w.theme_) ∧
    ∀ key, key ≠ CFG_CENTERED → key ≠ CFG_WND_POS → key ≠ CFG_THEME →
      QSettings.lookup (w.destruct s) key = QSettings.lookup s key := by
  unfold MainWidget.destruct
  refine ⟨?_, ?_, ?_, ?_⟩
  · rw [lookup_setValue_other _ _ _ _ (by decide), lookup_setValue_other _ _ _ _ (by decide),
      lookup_setValue_same]
  · rw [lookup_setValue_other _ _ _ _ (by decide), lookup_setValue_same]
  · rw [lookup_setValue_same]
  · intro key h1 h2 h3
    rw [lookup_setValue_other _ _ _ _ h3, lookup_setValue_other _ _ _ _ h2,
      lookup_setValue_other _ _ _ _ h1]

theorem applyTheme_frame (l : List QFileInfo) (w : MainWidget) :
    ∃ ss fo, (MainWidget.applyTheme l w).2 = { w with styleSheet := ss, fileOpens := fo } := by
  induction l generalizing w with
  | nil => exact ⟨w.styleSheet, w.fileOpens, rfl⟩
  | cons fi rest ih =>
    unfold MainWidget.applyTheme
    by_cases hb : fi.baseName = w.theme_
    · cases hc : fi.contents with
      | none =>
        simp only [hb, hc, if_true]
        obtain ⟨ss, fo, h⟩ := ih { w with fileOpens := w.fileOpens ++ [fi] }
        exact ⟨ss, fo, h⟩
      | some data =>
        simp only [hb, hc, if_true]
        exact ⟨data, w.fileOpens ++ [fi], rfl⟩
    · simp only [hb, if_false]
      exact ih w

theorem setTheme_frame (themeDirs : List (List QFileInfo)) (name : String) (w : MainWidget) :
    ∃ ss fo, (w.setTheme themeDirs name).2 =
      { w with theme_ := name, styleSheet := ss, fileOpens := fo } := by
  unfold MainWidget.setTheme
  exact applyTheme_frame _ _

/-- What the constructor yields when it does not exit: `showCentered_` and
`theme_` are the stored values or the defaults, the position is the stored
point if there is one, and `hideOnFocusLoss_` is not read from the store, the
member keeps the value it had. -/
theorem construct_members (s : QSettings) (themeDirs : List (List QFileInfo))
    (width height : Int) (h0 : Bool) (ss : String) (w : MainWidget)
    (h : MainWidget.construct s themeDirs width height h0 ss = Except.ok w) :
    w.showCentered_ = (QSettings.value s CFG_CENTERED (QVariant.bool DEF_CENTERED)).toBool ∧
    w.theme_ = (QSettings.value s CFG_THEME (QVariant.string DEF_THEME)).toString ∧
    (∀ p, QSettings.lookup s CFG_WND_POS = some (QVariant.point p) → w.pos = p) ∧
    w.hideOnFocusLoss_ = h0 := by
  unfold MainWidget.construct at h
  simp only at h
  generalize hth : (QSettings.value s CFG_THEME (QVariant.string DEF_THEME)).toString = th at h ⊢
  generalize hsc : (QSettings.value s CFG_CENTERED (QVariant.bool DEF_CENTERED)).toBool = sc at h ⊢
  obtain ⟨ss1, fo1, hfr⟩ := setTheme_frame themeDirs th
    { MainWidget.initial width height h0 ss with showCentered_ := sc, theme_ := th }
  cases hres : MainWidget.setTheme themeDirs th
      { MainWidget.initial width height h0 ss with showCentered_ := sc, theme_ := th } with
  | mk ok w3 =>
    rw [hres] at h hfr
    simp only at hfr
    cases ok with
    | false => simp at h
    | true =>
      simp only at h
      cases hl : QSettings.lookup s CFG_WND_POS with
      | none =>
        rw [hl] at h
        simp only [Except.ok.injEq] at h
        subst h
        subst hfr
        exact ⟨rfl, rfl, fun p hp => by simp at hp, rfl⟩
      | some v =>
        rw [hl] at h
        cases v with
        | point q =>
          simp only [QVariant.canConvertPoint, if_true, QVariant.toPoint, Except.ok.injEq] at h
          subst h
          subst hfr
          refine ⟨rfl, rfl, ?_, rfl⟩
          intro p hp
          simp only [Option.some.injEq, QVariant.point.injEq] at hp
          subst hp
          rfl
        | bool b =>
          simp only [QVariant.canConvertPoint, Bool.false_eq_true, if_false,
            Except.ok.injEq] at h
          subst h
          subst hfr
          exact ⟨rfl, rfl, fun p hp => by simp at hp, rfl⟩
        | string t =>
          simp only [QVariant.canConvertPoint, Bool.false_eq_true, if_false,
            Except.ok.injEq] at h
          subst h
          subst hfr
          exact ⟨rfl, rfl, fun p hp => by simp at hp, rfl⟩

/-- Destroying a window and constructing a new one from the resulting store
restores `showCentered`, `theme` and the window position; `hideOnFocusLoss` is
whatever the member holds before the constructor body runs, not the value of
the destroyed window. -/
theorem destruct_construct_roundtrip (w : MainWidget) (s : QSettings)
    (themeDirs : List (List QFileInfo)) (width height : Int) (h0 : Bool) (ss : String)
    (w1 : MainWidget)
    (h : MainWidget.construct (w.destruct s) themeDirs width height h0 ss = Except.ok w1) :
    w1.showCentered_ = w.showCentered_ ∧ w1.theme_ = w.theme_ ∧ w1.pos = w.pos ∧
    w1.hideOnFocusLoss_ = h0 := by
  obtain ⟨hsc, hth, hpos, hfl⟩ := construct_members _ _ _ _ _ _ _ h
  obtain ⟨d1, d2, d3, _⟩ := destruct_lookup w s
  refine ⟨?_, ?_, hpos w.pos d2, hfl⟩
  · rw [hsc]
    simp [QSettings.value, d1, QVariant.toBool]
  · rw [hth]
    simp [QSettings.value, d3, QVariant.toString]

/-- C9: `hideOnFocusLoss` is neither written by the destructor nor read by the
constructor. Destroying the sample window with `hideOnFocusLoss` set to the
opposite of `h0` leaves no `hideOnFocusLoss` key in the store, and the window
constructed from that store has `hideOnFocusLoss = h0`, the value the member
had before the constructor body, not the value of the destroyed window; a store
that holds `hideOnFocusLoss = false` is not read either. -/
theorem C9_hideOnFocusLoss_not_persisted (h0 : Bool) :
    QSettings.lookup ((sampleWidget.setHideOnFocusLoss (!h0)).destruct [])
      CFG_HIDE_ON_FOCUS_LOSS = none ∧
    (MainWidget.construct ((sampleWidget.setHideOnFocusLoss (!h0)).destruct [])
      sampleThemeDirs 640 480 h0 "").toOption.map MainWidget.hideOnFocusLoss = some h0 ∧
    (MainWidget.construct storeWithoutAutoHide sampleThemeDirs 640 480 true
      "").toOption.map MainWidget.hideOnFocusLoss = some true := by
  cases h0 <;> exact ⟨by decide, by decide, by decide⟩

end Albert
